import Mathlib

/-!
Verification development for the option-execution engine of
src/MagickWand/operation.c (ImageMagick).  The definitions below are a shallow
embedding of the dispatcher, the stack controller and the sparse-color
argument mini-parser; pointer-linked image lists become Lean lists, and the
external MagickCore collaborators (image transforms, the option tokenizer,
the color database) are abstracted at their interface boundary exactly as the
design document treats them.
-/

namespace Operation

/-- Exception severities used by the embedded code paths.  The C code throws
OptionError for nesting/parse problems and ResourceLimitFatalError only for
allocation failure (allocation is not modelled as failing here). -/
inductive Severity where
  | optionError
  | resourceLimitFatalError
deriving DecidableEq, Repr

/-- Whether a severity terminates the whole run (§7 of the design: a
ResourceError is fatal, option/state errors abort only the current option). -/
def Severity.isFatal : Severity → Bool
  | .optionError => false
  | .resourceLimitFatalError => true

/-- Error codes thrown by the embedded fragments of CLISpecialOperator. -/
inductive ErrCode where
  | parenthesisNestedTooDeeply
  | unbalancedParenthesis
deriving DecidableEq, Repr

/-- One diagnostic record accumulated in the exception sink. -/
structure ExceptionRecord where
  severity : Severity
  code : ErrCode
deriving DecidableEq, Repr

/-- An image, reduced to what the dispatcher claims mention: an identity (the
object never changes identity under in-place mutation), an abstract attribute
payload, and an instrumentation counter recording how many times
SyncImageSettings has been applied to it. -/
structure Image where
  id : Nat
  attrs : Nat
  syncCount : Nat
deriving DecidableEq, Repr

/-- The settings store (ImageInfo): a flat option-name/value map.  Only its
content matters for the claims; GetImageOption looks a key up. -/
structure ImageInfo where
  options : List (String × String)
deriving DecidableEq, Repr

/-- GetImageOption: returns the value of a named option, or none when unset
(the C code distinguishes exactly NULL versus non-NULL). -/
def GetImageOption (info : ImageInfo) (key : String) : Option String :=
  (info.options.find? (fun p => p.1 = key)).map (fun p => p.2)

/-- CloneImageInfo makes a deep copy; content-wise the clone equals the
original, which is all a content-level embedding records. -/
def CloneImageInfo (info : ImageInfo) : ImageInfo :=
  info

/-- Drawing defaults; derived from a settings store by GetDrawInfo.  The
embedding records which settings content the defaults were derived from. -/
structure DrawInfo where
  derivedFrom : ImageInfo
deriving DecidableEq, Repr

/-- GetDrawInfo re-derives the drawing defaults from the given settings. -/
def GetDrawInfo (info : ImageInfo) : DrawInfo :=
  ⟨info⟩

/-- Quantization defaults; derived from a settings store. -/
structure QuantizeInfo where
  derivedFrom : ImageInfo
deriving DecidableEq, Repr

/-- AcquireQuantizeInfo derives quantization defaults from the settings. -/
def AcquireQuantizeInfo (info : ImageInfo) : QuantizeInfo :=
  ⟨info⟩

/-- The Execution Context (MagickCLI wand): current image list, current
settings, the two bounded stacks, derived defaults and the exception sink. -/
structure MagickCLI where
  images : List Image
  image_info : ImageInfo
  image_list_stack : List (List Image)
  image_info_stack : List ImageInfo
  draw_info : DrawInfo
  quantize_info : QuantizeInfo
  exceptions : List ExceptionRecord
deriving DecidableEq, Repr

/-- ThrowMagickException: records a diagnostic in the exception sink; nothing
else of the context changes. -/
def throwErr (w : MagickCLI) (s : Severity) (c : ErrCode) : MagickCLI :=
  { w with exceptions := w.exceptions ++ [⟨s, c⟩] }

/-- MAX_STACK_DEPTH from operation.c line 64. -/
def MAX_STACK_DEPTH : Nat := 32

/-- The settings-scope push (the body of the option-info stack push in
CLISpecialOperator, lines 4294-4333): depth check against MAX_STACK_DEPTH,
then push the original settings onto the stack and adopt a clone. -/
def settingsPush (w : MagickCLI) : MagickCLI :=
  if MAX_STACK_DEPTH ≤ w.image_info_stack.length then
    throwErr w .optionError .parenthesisNestedTooDeeply
  else
    { w with
      image_info_stack := w.image_info :: w.image_info_stack,
      image_info := CloneImageInfo w.image_info }

/-- The settings-scope pop (lines 4369-4393): error when the stack is empty;
otherwise discard the current settings, restore the popped snapshot and
re-derive draw/quantize defaults from it. -/
def settingsPop (w : MagickCLI) : MagickCLI :=
  match w.image_info_stack with
  | [] => throwErr w .optionError .unbalancedParenthesis
  | info :: rest =>
      { w with
        image_info := info,
        image_info_stack := rest,
        draw_info := GetDrawInfo info,
        quantize_info := AcquireQuantizeInfo info }

/-- The raw image-list push (lines 4275-4285, after the depth check): move the
whole current list onto the stack and make the current list empty.  The
settings record is untouched by this action. -/
def imageListPushRaw (w : MagickCLI) : MagickCLI :=
  { w with
    image_list_stack := w.images :: w.image_list_stack,
    images := [] }

/-- The raw image-list pop (lines 4343-4354), given the popped entry: the
current list is appended onto the tail of the popped sequence and the
concatenation becomes the current list. -/
def imageListPopRaw (w : MagickCLI) (top : List Image) (rest : List (List Image)) :
    MagickCLI :=
  { w with
    image_list_stack := rest,
    images := top ++ w.images }

/-- CLISpecialOperator (operation.c lines 4242-4545), restricted to the four
stack-control options.  The image-list push reads the respect-parenthesis
option from the settings record after acting on the image push (which leaves
the settings untouched) and, when set, falls through into the settings push;
the image-list pop reads it from the settings record on top of the settings
stack and, when set, falls through into the settings pop.  The remaining
special options (clone, read, noop, sans, list) never touch either stack or
the settings record and are outside the claims; they leave the modelled state
unchanged here.  The brace option strings are written with escapes. -/
def CLISpecialOperator (w : MagickCLI) (option : String) (_arg : String) :
    MagickCLI :=
  if option = "(" then
    if MAX_STACK_DEPTH ≤ w.image_list_stack.length then
      throwErr w .optionError .parenthesisNestedTooDeeply
    else
      let w1 := imageListPushRaw w
      match GetImageOption w1.image_info "respect-parenthesis" with
      | some _ => settingsPush w1
      | none => w1
  else if option = "\x7b" then
    settingsPush w
  else if option = ")" then
    match w.image_list_stack with
    | [] => throwErr w .optionError .unbalancedParenthesis
    | top :: rest =>
        let w1 := imageListPopRaw w top rest
        match w1.image_info_stack with
        | [] => w1
        | info :: _ =>
            match GetImageOption info "respect-parenthesis" with
            | some _ => settingsPop w1
            | none => w1
  else if option = "\x7d" then
    settingsPop w
  else
    w

/-- Modelled from the spec: SyncImageSettings (a MagickCore collaborator, not
under src/) re-synchronizes the per-image attributes of one image from the
current settings store.  The embedding treats the attribute transfer as
opaque, preserves the image identity, and bumps the instrumentation counter
so that theorems can count how many times the dispatcher invoked it. -/
def SyncImageSettings (_info : ImageInfo) (img : Image) : Image :=
  { img with syncCount := img.syncCount + 1 }

/-- Modelled from the spec: SyncImagesSettings (MagickCore, not under src/)
applies the per-image synchronization once to every image of a list. -/
def SyncImagesSettings (info : ImageInfo) (imgs : List Image) : List Image :=
  imgs.map (SyncImageSettings info)

/-- Outcome of one per-image operator handler (operation.c lines 1600-1616):
the current image is either mutated in place (new_image stays NULL) or
replaced by a produced non-empty image sequence (new_image; crop and separate
produce several images). -/
inductive SimpleResult where
  | inPlace (img : Image)
  | replace (first : Image) (rest : List Image)
deriving DecidableEq, Repr

/-- CLISimpleOperatorImage (lines 1617-3402), abstracted over the several
hundred per-option handlers: the current image is synchronized from the
settings (line 1656), the handler runs, and when it produced new_image the
current slot is replaced by the produced sequence
(ReplaceImageInListReturnLast, line 3390).  The returned list is the
non-empty sequence now occupying the slot of the visited image; the list
pointer is left on its last element. -/
def CLISimpleOperatorImage (info : ImageInfo) (handler : Image → SimpleResult)
    (cur : Image) : List Image :=
  match handler (SyncImageSettings info cur) with
  | .inPlace i => [i]
  | .replace first rest => first :: rest

/-- The iteration of CLISimpleOperatorImages (lines 3418-3431): apply the
per-image operation to the current image, then stop if the (possibly
replaced) current image has no successor, else advance to the successor.
Because the pointer is left on the last produced image, iteration resumes
after the produced sequence.  Returns the final list together with the number
of handler invocations (the loop counter i, asserted equal to the entry
length at line 3430). -/
def CLISimpleOperatorLoop (info : ImageInfo) (handler : Image → SimpleResult)
    (prev : List Image) (cur : Image) : List Image → List Image × Nat
  | [] => (prev ++ CLISimpleOperatorImage info handler cur, 1)
  | nxt :: rest =>
      let r := CLISimpleOperatorLoop info handler
        (prev ++ CLISimpleOperatorImage info handler cur) nxt rest
      (r.1, r.2 + 1)

/-- CLISimpleOperatorImages (lines 3404-3439): requires a non-empty image
list (assertion at line 3414, returning none models the violated contract),
rewinds to the first image and runs the per-image loop from there. -/
def CLISimpleOperatorImages (info : ImageInfo) (handler : Image → SimpleResult)
    (imgs : List Image) : Option (List Image × Nat) :=
  match imgs with
  | [] => none
  | first :: rest => some (CLISimpleOperatorLoop info handler [] first rest)

/-- CLIListOperatorImages (lines 3493-4186), abstracted over the per-option
handlers: requires a non-empty list (line 3511), synchronizes settings into
all images once (line 3515), then runs the handler on the whole list.  A
handler may mutate the list in place and may produce a replacement list
new_images (NULL, i.e. the empty list, when it produced none).  When
new_images is empty the current list is kept as the handler left it (lines
4170-4171); otherwise the old list is destroyed wholesale and the
replacement, from its first image, becomes the current list (lines
4173-4175). -/
def CLIListOperatorImages (info : ImageInfo)
    (handler : List Image → List Image × List Image) (imgs : List Image) :
    Option (List Image) :=
  match imgs with
  | [] => none
  | _ :: _ =>
      let r := handler (SyncImagesSettings info imgs)
      match r.2 with
      | [] => some r.1
      | first :: rest => some (first :: rest)

/-- A resolved color (PixelInfo) as returned by the color database, with
channel intensities in quantum units (QuantumRange = full intensity). -/
structure PixelInfo where
  red : ℚ
  green : ℚ
  blue : ℚ
  black : ℚ
  alpha : ℚ
deriving DecidableEq, Repr

/-- One token of the sparse-color argument string as delivered by the option
tokenizer and classified by SparseColorOption: GetMagickToken returns comma
tokens, which the parser skips; a token starting with an alphabetic character
or a hash mark is a color specification (carried here already resolved by the
color database, an external collaborator); anything else is a bare
floating-point number. -/
inductive Token where
  | comma
  | num (v : ℚ)
  | colorTok (c : PixelInfo)
deriving DecidableEq, Repr

/-- Which color channels are active for the image (operation.c lines
198-210): a flag is true when the channel trait is updatable and, for black
and alpha, the colorspace/matte precondition also holds. -/
structure ChannelConfig where
  red : Bool
  green : Bool
  blue : Bool
  black : Bool
  alpha : Bool
deriving DecidableEq, Repr

/-- number_colors, the count of active channels. -/
def ChannelConfig.count (ch : ChannelConfig) : Nat :=
  (if ch.red then 1 else 0) + (if ch.green then 1 else 0) +
  (if ch.blue then 1 else 0) + (if ch.black then 1 else 0) +
  (if ch.alpha then 1 else 0)

/-- QuantumRange for the Q16 build: full channel intensity. -/
def QuantumRange : ℚ := 65535

/-- QuantumScale, the normalization factor to the unit interval. -/
def QuantumScale : ℚ := 1 / QuantumRange

/-- The numeric components a resolved color contributes, one per active
channel in channel order, each scaled by QuantumScale (lines 280-291). -/
def colorComponents (ch : ChannelConfig) (c : PixelInfo) : List ℚ :=
  (if ch.red then [QuantumScale * c.red] else []) ++
  (if ch.green then [QuantumScale * c.green] else []) ++
  (if ch.blue then [QuantumScale * c.blue] else []) ++
  (if ch.black then [QuantumScale * c.black] else []) ++
  (if ch.alpha then [QuantumScale * c.alpha] else [])

/-- Pass 1 of SparseColorOption (lines 215-226): walk the token stream,
ignoring commas, counting each color token as number_colors values and each
bare number as one value. -/
def countSparseArgs (ch : ChannelConfig) : List Token → Nat
  | [] => 0
  | Token.comma :: ts => countSparseArgs ch ts
  | Token.colorTok _ :: ts => ch.count + countSparseArgs ch ts
  | Token.num _ :: ts => 1 + countSparseArgs ch ts

/-- The token-fetch idiom of pass 2 (token[0] set to comma, then fetch until
a non-comma token or the end of the string): returns the next non-comma
token together with the remaining stream. -/
def nextTok : List Token → Option (Token × List Token)
  | [] => none
  | Token.comma :: ts => nextTok ts
  | t :: ts => some (t, ts)

/-- The experimental bare-channel-values branch of pass 2 (lines 293-338)
after its first value: one further bare number is fetched per remaining
active channel; the end of the string or a color-classified token breaks out
of the fill loop, keeping the values written so far (the flag records whether
all values were read). -/
def readBareChannels : Nat → List Token → List ℚ × List Token × Bool
  | 0, ts => ([], ts, true)
  | Nat.succ k, ts =>
      match nextTok ts with
      | none => ([], ts, false)
      | some (Token.num v, rest) =>
          let r := readBareChannels k rest
          (v :: r.1, r.2.1, r.2.2)
      | some (Token.comma, rest) => ([], rest, false)
      | some (Token.colorTok _, _) => ([], ts, false)

/-- The parse errors SparseColorOption can report (§4.1 of the design). -/
inductive SparseErr where
  | invalidCount
  | colorInsteadOfX
  | colorInsteadOfY
  | parsingError
deriving DecidableEq, Repr

/-- Pass 2 of SparseColorOption (lines 248-339): repeatedly read an x
coordinate, a y coordinate and a color specification; a color token found
where a coordinate is expected raises the error flag with the matching
message and stops; the end of the string stops quietly; a color token
expands to its per-channel components, while a bare number starts the
experimental bare-values branch.  The result is the filled argument list,
the fill count x and the raised error, if any.  The fuel argument only
drives the recursion; it is initialized to more than the token count and
each iteration consumes at least one token, so the fuel-exhaustion branch is
unreachable (fillSparseFuel_congr below makes this irrelevance precise). -/
def fillSparseFuel (ch : ChannelConfig) (total : Nat) :
    Nat → List Token → Nat → List ℚ → List ℚ × Nat × Option SparseErr
  | 0, _, x, acc => (acc, x, none)
  | Nat.succ fuel, ts, x, acc =>
      if x < total then
        match nextTok ts with
        | none => (acc, x, none)
        | some (Token.comma, _) => (acc, x, none)
        | some (Token.colorTok _, _) => (acc, x, some SparseErr.colorInsteadOfX)
        | some (Token.num vx, ts1) =>
            match nextTok ts1 with
            | none => (acc ++ [vx], x + 1, none)
            | some (Token.comma, _) => (acc ++ [vx], x + 1, none)
            | some (Token.colorTok _, _) =>
                (acc ++ [vx], x + 1, some SparseErr.colorInsteadOfY)
            | some (Token.num vy, ts2) =>
                match nextTok ts2 with
                | none => (acc ++ [vx, vy], x + 2, none)
                | some (Token.comma, _) => (acc ++ [vx, vy], x + 2, none)
                | some (Token.colorTok c, ts3) =>
                    fillSparseFuel ch total fuel ts3
                      (x + 2 + (colorComponents ch c).length)
                      (acc ++ [vx, vy] ++ colorComponents ch c)
                | some (Token.num v3, ts3) =>
                    if ch.count = 0 then
                      fillSparseFuel ch total fuel ts3 (x + 2) (acc ++ [vx, vy])
                    else
                      if (readBareChannels (ch.count - 1) ts3).2.2 then
                        fillSparseFuel ch total fuel
                          (readBareChannels (ch.count - 1) ts3).2.1
                          (x + 2 + (v3 :: (readBareChannels (ch.count - 1) ts3).1).length)
                          (acc ++ [vx, vy] ++ v3 :: (readBareChannels (ch.count - 1) ts3).1)
                      else
                        (acc ++ [vx, vy] ++ v3 :: (readBareChannels (ch.count - 1) ts3).1,
                         x + 2 + (v3 :: (readBareChannels (ch.count - 1) ts3).1).length,
                         none)
      else (acc, x, none)

/-- SparseColorOption (lines 160-347), the argument mini-parser: pass 1
counts the needed values and rejects a total that is not a multiple of
2 + number_colors before any output is built; pass 2 fills the argument
array; an error flag raised in pass 2 yields that error, a fill count short
of the computed total (with no flag raised) yields the argument-parsing
error, and otherwise the filled array is the result handed on to
SparseColorImage. -/
def SparseColorOption (ch : ChannelConfig) (ts : List Token) :
    Except SparseErr (List ℚ) :=
  let number_arguments := countSparseArgs ch ts
  if number_arguments % (2 + ch.count) ≠ 0 then
    Except.error SparseErr.invalidCount
  else
    let r := fillSparseFuel ch number_arguments (ts.length + 1) ts 0 []
    match r.2.2 with
    | some e => Except.error e
    | none =>
        if number_arguments ≠ r.2.1 then Except.error SparseErr.parsingError
        else Except.ok r.1

/-- Splits a character stream into comma-separated fields (helper for the
modelled tokenizer); the accumulator holds the current field reversed. -/
def splitFieldsAux : List Char → List Char → List (List Char)
  | [], acc => [acc.reverse]
  | c :: rest, acc =>
      if c = ',' then acc.reverse :: splitFieldsAux rest []
      else splitFieldsAux rest (c :: acc)

/-- Modelled from the spec: plain decimal-digit conversion, the fragment of
StringToDouble (a C library collaborator) needed for the integral number
tokens appearing in the specification example. -/
def parseDecDigits (cs : List Char) : ℚ :=
  cs.foldl (fun a c => a * 10 + ((c.toNat - 48 : Nat) : ℚ)) 0

/-- Modelled from the spec: the color database lookup QueryColorCompliance
(MagickCore, not under src/), restricted to the two colors of the
specification example; channel intensities are returned in quantum units
for the Q16 build. -/
def queryColor (cs : List Char) : PixelInfo :=
  if cs = "red".toList then ⟨65535, 0, 0, 0, 65535⟩
  else if cs = "#00ff00".toList then ⟨0, 65535, 0, 0, 65535⟩
  else ⟨0, 0, 0, 0, 65535⟩

/-- Classification of one field, following SparseColorOption: a field whose
first character is alphabetic or a hash mark is a color specification,
anything else is a bare number; an empty field (consecutive commas)
degenerates to a comma token, which the parser skips. -/
def classifyField (cs : List Char) : Token :=
  match cs with
  | [] => Token.comma
  | c :: _ =>
      if c.isAlpha || c == '#' then Token.colorTok (queryColor cs)
      else Token.num (parseDecDigits cs)

/-- Modelled from the spec: the standard image-option tokenizer
(GetMagickToken, MagickCore, not under src/) splits the argument string on
commas, returning the comma separators as their own tokens; quoting and
whitespace handling are not needed for the specification example. -/
def tokenizeSparse (s : String) : List Token :=
  List.intersperse Token.comma ((splitFieldsAux s.toList []).map classifyField)

/-- An empty settings store, used by concrete instances below. -/
def emptyInfo : ImageInfo := ⟨[]⟩

/-- A settings store with the respect-parenthesis toggle set. -/
def rpInfo : ImageInfo := ⟨[("respect-parenthesis", "true")]⟩

/-- Builds an execution context with the given image list, settings and
stacks, with freshly derived defaults and an empty exception sink. -/
def mkWand (images : List Image) (info : ImageInfo)
    (lstack : List (List Image)) (istack : List ImageInfo) : MagickCLI :=
  ⟨images, info, lstack, istack, GetDrawInfo info, AcquireQuantizeInfo info, []⟩

/-- The RGB channel configuration of the specification example (red, green
and blue updatable; no CMYK black, no alpha). -/
def rgbChans : ChannelConfig := ⟨true, true, true, false, false⟩

deriving instance DecidableEq for Except

theorem CLISimpleOperatorLoop_eq (info : ImageInfo)
    (handler : Image → SimpleResult) (rest : List Image)
    (prev : List Image) (cur : Image) :
    CLISimpleOperatorLoop info handler prev cur rest
      = (prev ++ CLISimpleOperatorImage info handler cur
           ++ (rest.map (CLISimpleOperatorImage info handler)).flatten,
         rest.length + 1) := by
  induction rest generalizing prev cur with
  | nil => simp [CLISimpleOperatorLoop]
  | cons nxt rest ih =>
      simp [CLISimpleOperatorLoop, ih]

theorem CLISimpleOperatorImages_flatten (info : ImageInfo)
    (handler : Image → SimpleResult) (imgs : List Image) (hne : imgs ≠ []) :
    CLISimpleOperatorImages info handler imgs
      = some ((imgs.map (CLISimpleOperatorImage info handler)).flatten,
              imgs.length) := by
  match imgs, hne with
  | first :: rest, _ =>
      simp [CLISimpleOperatorImages, CLISimpleOperatorLoop_eq]

theorem flatten_map_singleton {α β : Type} (g : α → β) (l : List α) :
    (l.map (fun a => [g a])).flatten = l.map g := by
  induction l with
  | nil => rfl
  | cons a l ih => simp [ih]

/-- C1: for a non-empty image list and a per-image operator whose handler
mutates images in place, CLISimpleOperatorImages returns the list with the
same length, the same images (same identities) in the same order, the
handler ran once per entry image, and for any handler at all the number of
handler invocations equals the length sampled at entry, so images a handler
adds to the list during the pass are never visited in that pass. -/
theorem simple_operator_inplace_preserves (info : ImageInfo)
    (handler : Image → SimpleResult) (f : Image → Image) (imgs : List Image)
    (hne : imgs ≠ [])
    (hh : ∀ i, handler i = SimpleResult.inPlace (f i))
    (hid : ∀ i, (f i).id = i.id) :
    CLISimpleOperatorImages info handler imgs
        = some (imgs.map (fun i => f (SyncImageSettings info i)), imgs.length)
      ∧ (imgs.map (fun i => f (SyncImageSettings info i))).length = imgs.length
      ∧ (imgs.map (fun i => f (SyncImageSettings info i))).map Image.id
          = imgs.map Image.id
      ∧ ∀ h2 : Image → SimpleResult,
          (CLISimpleOperatorImages info h2 imgs).map Prod.snd
            = some imgs.length := by
  refine ⟨?_, by simp, ?_, ?_⟩
  · rw [CLISimpleOperatorImages_flatten info handler imgs hne]
    have hslot : ∀ i, CLISimpleOperatorImage info handler i
        = [f (SyncImageSettings info i)] := by
      intro i
      simp [CLISimpleOperatorImage, hh]
    have hmap : imgs.map (CLISimpleOperatorImage info handler)
        = imgs.map (fun i => [f (SyncImageSettings info i)]) :=
      List.map_congr_left (fun i _ => hslot i)
    rw [hmap, flatten_map_singleton]
  · rw [List.map_map]
    refine List.map_congr_left ?_
    intro a _
    simp [Function.comp, hid, SyncImageSettings]
  · intro h2
    rw [CLISimpleOperatorImages_flatten info h2 imgs hne]
    rfl

/-- C1 witness: a concrete one-image list under a concrete in-place
handler. -/
theorem simple_operator_inplace_preserves_witness :
    CLISimpleOperatorImages emptyInfo (fun i => SimpleResult.inPlace i)
        [⟨1, 4, 0⟩]
      = some ([⟨1, 4, 1⟩], 1) := by
  have h := simple_operator_inplace_preserves emptyInfo
    (fun i => SimpleResult.inPlace i) (fun i => i) [⟨1, 4, 0⟩]
    (by decide) (fun i => rfl) (fun i => rfl)
  simpa [SyncImageSettings] using h.1

/-- C2: a per-image operator whose handler replaces one image of the list by
a produced sequence of k images, leaving all other images in place, yields a
list of N-1+k images in which the produced sequence occupies exactly the
replaced slot, the other images keep their relative order, and the handler
ran exactly N times (the produced images, placed before the resumption
point, are never re-visited in the pass). -/
theorem simple_operator_replace_splices (info : ImageInfo)
    (handler : Image → SimpleResult) (pre post : List Image) (t r : Image)
    (rs : List Image)
    (hpre : ∀ i ∈ pre,
      handler (SyncImageSettings info i)
        = SimpleResult.inPlace (SyncImageSettings info i))
    (hpost : ∀ i ∈ post,
      handler (SyncImageSettings info i)
        = SimpleResult.inPlace (SyncImageSettings info i))
    (ht : handler (SyncImageSettings info t) = SimpleResult.replace r rs) :
    CLISimpleOperatorImages info handler (pre ++ t :: post)
        = some (pre.map (SyncImageSettings info) ++ (r :: rs)
                  ++ post.map (SyncImageSettings info),
                (pre ++ t :: post).length)
      ∧ (pre.map (SyncImageSettings info) ++ (r :: rs)
           ++ post.map (SyncImageSettings info)).length
          = (pre ++ t :: post).length - 1 + (r :: rs).length := by
  constructor
  · rw [CLISimpleOperatorImages_flatten info handler (pre ++ t :: post)
      (by simp)]
    have hslot : ∀ i ∈ pre ++ post, CLISimpleOperatorImage info handler i
        = [SyncImageSettings info i] := by
      intro i hi
      rcases List.mem_append.mp hi with hip | hip
      · simp [CLISimpleOperatorImage, hpre i hip]
      · simp [CLISimpleOperatorImage, hpost i hip]
    have hslott : CLISimpleOperatorImage info handler t = r :: rs := by
      simp [CLISimpleOperatorImage, ht]
    have hmpre : pre.map (CLISimpleOperatorImage info handler)
        = pre.map (fun i => [SyncImageSettings info i]) :=
      List.map_congr_left (fun i hi => hslot i (List.mem_append.mpr (Or.inl hi)))
    have hmpost : post.map (CLISimpleOperatorImage info handler)
        = post.map (fun i => [SyncImageSettings info i]) :=
      List.map_congr_left (fun i hi => hslot i (List.mem_append.mpr (Or.inr hi)))
    simp only [List.map_append, List.map_cons, List.flatten_append,
      List.flatten_cons, hmpre, hmpost, hslott, flatten_map_singleton]
    simp
  · simp [List.length_append]
    omega

/-- C2 witness: a two-image list where the second image is split into two
produced images. -/
theorem simple_operator_replace_splices_witness :
    CLISimpleOperatorImages emptyInfo
        (fun i => if i.id = 2 then SimpleResult.replace ⟨7, 0, 0⟩ [⟨8, 0, 0⟩]
                  else SimpleResult.inPlace i)
        [⟨1, 4, 0⟩, ⟨2, 5, 0⟩]
      = some ([⟨1, 4, 1⟩, ⟨7, 0, 0⟩, ⟨8, 0, 0⟩], 2) := by
  have h := simple_operator_replace_splices emptyInfo
    (fun i => if i.id = 2 then SimpleResult.replace ⟨7, 0, 0⟩ [⟨8, 0, 0⟩]
              else SimpleResult.inPlace i)
    [⟨1, 4, 0⟩] [] ⟨2, 5, 0⟩ ⟨7, 0, 0⟩ [⟨8, 0, 0⟩]
    (by decide) (by decide) (by decide)
  simpa [SyncImageSettings] using h.1

/-- C9 counterexample: on a two-image list, one call of
CLISimpleOperatorImages with an in-place handler performs two
synchronizations, one per image (each syncCount rises from 0 to 1, total 2),
not a single synchronization per dispatcher call as the claim states: the
sync sits inside CLISimpleOperatorImage (line 1656), which the loop at lines
3418-3431 runs once per image. -/
theorem sync_once_per_call_cex :
    CLISimpleOperatorImages emptyInfo (fun i => SimpleResult.inPlace i)
        [⟨1, 4, 0⟩, ⟨2, 5, 0⟩]
      = some ([⟨1, 4, 1⟩, ⟨2, 5, 1⟩], 2)
    ∧ ([⟨1, 4, 1⟩, ⟨2, 5, 1⟩].map Image.syncCount).sum = 2
    ∧ (2 : Nat) ≠ 1 := by
  decide

/-- C9 (amended): during one per-image dispatcher call over N images with an
in-place handler (one that does not touch the instrumentation counter), each
image is synchronized from the settings exactly once, immediately before its
handler invocation, so the call performs N synchronizations (one per image
visited), not a single one. -/
theorem sync_per_image_amended (info : ImageInfo)
    (handler : Image → SimpleResult) (f : Image → Image) (imgs : List Image)
    (hne : imgs ≠ [])
    (hh : ∀ i, handler i = SimpleResult.inPlace (f i))
    (hsc : ∀ i, (f i).syncCount = i.syncCount) :
    CLISimpleOperatorImages info handler imgs
        = some (imgs.map (fun i => f (SyncImageSettings info i)), imgs.length)
      ∧ (imgs.map (fun i => f (SyncImageSettings info i))).map Image.syncCount
          = imgs.map (fun i => i.syncCount + 1) := by
  constructor
  · rw [CLISimpleOperatorImages_flatten info handler imgs hne]
    have hmap : imgs.map (CLISimpleOperatorImage info handler)
        = imgs.map (fun i => [f (SyncImageSettings info i)]) :=
      List.map_congr_left (fun i _ => by simp [CLISimpleOperatorImage, hh])
    rw [hmap, flatten_map_singleton]
  · rw [List.map_map]
    refine List.map_congr_left ?_
    intro a _
    simp [Function.comp, hsc, SyncImageSettings]

/-- C9 amended witness: the two-image instance, via the amended theorem. -/
theorem sync_per_image_amended_witness :
    CLISimpleOperatorImages emptyInfo (fun i => SimpleResult.inPlace i)
        [⟨3, 0, 5⟩, ⟨4, 0, 9⟩]
      = some ([⟨3, 0, 6⟩, ⟨4, 0, 10⟩], 2) := by
  have h := sync_per_image_amended emptyInfo
    (fun i => SimpleResult.inPlace i) (fun i => i) [⟨3, 0, 5⟩, ⟨4, 0, 9⟩]
    (by decide) (fun i => rfl) (fun i => rfl)
  simpa [SyncImageSettings] using h.1

/-- C6: a whole-list operator on a non-empty list synchronizes attributes
into every image exactly once, hands the synchronized list to the handler,
and then: a non-empty produced replacement becomes the whole new list in one
step (the old list is discarded wholesale); an empty replacement leaves the
list exactly as the handler left it in place. -/
theorem list_operator_spec (info : ImageInfo)
    (handler : List Image → List Image × List Image) (imgs : List Image)
    (hne : imgs ≠ []) :
    (∀ mutated first rest,
        handler (SyncImagesSettings info imgs) = (mutated, first :: rest) →
        CLIListOperatorImages info handler imgs = some (first :: rest))
  ∧ (∀ mutated, handler (SyncImagesSettings info imgs) = (mutated, []) →
        CLIListOperatorImages info handler imgs = some mutated)
  ∧ CLIListOperatorImages info (fun l => (l, [])) imgs
        = some (imgs.map (SyncImageSettings info))
  ∧ (imgs.map (SyncImageSettings info)).map Image.syncCount
        = imgs.map (fun i => i.syncCount + 1) := by
  match imgs, hne with
  | first0 :: rest0, _ =>
      refine ⟨?_, ?_, ?_, ?_⟩
      · intro mutated first rest hrepl
        simp [CLIListOperatorImages, hrepl]
      · intro mutated hrepl
        simp [CLIListOperatorImages, hrepl]
      · simp [CLIListOperatorImages, SyncImagesSettings]
      · rw [List.map_map]
        exact List.map_congr_left (fun a _ => by simp [SyncImageSettings])

/-- C6 witness: a one-image list whose handler produces a two-image
replacement, and the same list under a handler producing none. -/
theorem list_operator_spec_witness :
    CLIListOperatorImages emptyInfo (fun _ => ([], [⟨7, 0, 0⟩, ⟨8, 0, 0⟩]))
        [⟨1, 4, 0⟩]
      = some [⟨7, 0, 0⟩, ⟨8, 0, 0⟩]
    ∧ CLIListOperatorImages emptyInfo (fun l => (l, [])) [⟨1, 4, 0⟩]
      = some [⟨1, 4, 1⟩] := by
  constructor
  · exact (list_operator_spec emptyInfo
      (fun _ => ([], [⟨7, 0, 0⟩, ⟨8, 0, 0⟩])) [⟨1, 4, 0⟩] (by decide)).1
      [] ⟨7, 0, 0⟩ [⟨8, 0, 0⟩] rfl
  · have h := (list_operator_spec emptyInfo (fun l => (l, []))
      [⟨1, 4, 0⟩] (by decide)).2.2.1
    simpa [SyncImagesSettings, SyncImageSettings] using h

theorem throwErr_images (w : MagickCLI) (s : Severity) (c : ErrCode) :
    (throwErr w s c).images = w.images := rfl

theorem throwErr_image_info (w : MagickCLI) (s : Severity) (c : ErrCode) :
    (throwErr w s c).image_info = w.image_info := rfl

theorem throwErr_image_list_stack (w : MagickCLI) (s : Severity) (c : ErrCode) :
    (throwErr w s c).image_list_stack = w.image_list_stack := rfl

theorem throwErr_image_info_stack (w : MagickCLI) (s : Severity) (c : ErrCode) :
    (throwErr w s c).image_info_stack = w.image_info_stack := rfl

theorem imageListPushRaw_image_list_stack (w : MagickCLI) :
    (imageListPushRaw w).image_list_stack = w.images :: w.image_list_stack := rfl

theorem imageListPushRaw_images (w : MagickCLI) :
    (imageListPushRaw w).images = [] := rfl

theorem imageListPushRaw_image_info (w : MagickCLI) :
    (imageListPushRaw w).image_info = w.image_info := rfl

theorem imageListPushRaw_image_info_stack (w : MagickCLI) :
    (imageListPushRaw w).image_info_stack = w.image_info_stack := rfl

theorem imageListPopRaw_image_list_stack (w : MagickCLI) (top : List Image)
    (rest : List (List Image)) :
    (imageListPopRaw w top rest).image_list_stack = rest := rfl

theorem imageListPopRaw_images (w : MagickCLI) (top : List Image)
    (rest : List (List Image)) :
    (imageListPopRaw w top rest).images = top ++ w.images := rfl

theorem imageListPopRaw_image_info (w : MagickCLI) (top : List Image)
    (rest : List (List Image)) :
    (imageListPopRaw w top rest).image_info = w.image_info := rfl

theorem imageListPopRaw_image_info_stack (w : MagickCLI) (top : List Image)
    (rest : List (List Image)) :
    (imageListPopRaw w top rest).image_info_stack = w.image_info_stack := rfl

theorem settingsPush_image_list_stack (w : MagickCLI) :
    (settingsPush w).image_list_stack = w.image_list_stack := by
  unfold settingsPush
  split <;> rfl

theorem settingsPush_images (w : MagickCLI) :
    (settingsPush w).images = w.images := by
  unfold settingsPush
  split <;> rfl

theorem settingsPush_depth (w : MagickCLI)
    (h : w.image_info_stack.length ≤ MAX_STACK_DEPTH) :
    (settingsPush w).image_info_stack.length ≤ MAX_STACK_DEPTH := by
  unfold settingsPush
  split
  · exact h
  · simp only [MAX_STACK_DEPTH] at *
    simp
    omega

theorem settingsPop_image_list_stack (w : MagickCLI) :
    (settingsPop w).image_list_stack = w.image_list_stack := by
  unfold settingsPop
  cases w.image_info_stack <;> rfl

theorem settingsPop_images (w : MagickCLI) :
    (settingsPop w).images = w.images := by
  unfold settingsPop
  cases w.image_info_stack <;> rfl

theorem settingsPop_depth (w : MagickCLI)
    (h : w.image_info_stack.length ≤ MAX_STACK_DEPTH) :
    (settingsPop w).image_info_stack.length ≤ MAX_STACK_DEPTH := by
  unfold settingsPop
  cases hstk : w.image_info_stack with
  | nil => simp [throwErr, hstk]
  | cons a l =>
      rw [hstk] at h
      simp at h ⊢
      omega

theorem settingsPush_not_full (w : MagickCLI)
    (h : ¬ MAX_STACK_DEPTH ≤ w.image_info_stack.length) :
    settingsPush w
      = { w with
          image_info_stack := w.image_info :: w.image_info_stack,
          image_info := CloneImageInfo w.image_info } := by
  unfold settingsPush
  rw [if_neg h]

theorem settingsPop_cons (w : MagickCLI) (info : ImageInfo)
    (S : List ImageInfo) (h : w.image_info_stack = info :: S) :
    settingsPop w
      = { w with
          image_info := info,
          image_info_stack := S,
          draw_info := GetDrawInfo info,
          quantize_info := AcquireQuantizeInfo info } := by
  unfold settingsPop
  rw [h]

theorem CLISpecialOperator_paren_some (w : MagickCLI) (arg : String)
    (h2 : ¬ MAX_STACK_DEPTH ≤ w.image_list_stack.length) (v : String)
    (hopt : GetImageOption w.image_info "respect-parenthesis" = some v) :
    CLISpecialOperator w "(" arg = settingsPush (imageListPushRaw w) := by
  simp [CLISpecialOperator, h2, imageListPushRaw_image_info, hopt]

theorem CLISpecialOperator_paren_none (w : MagickCLI) (arg : String)
    (h2 : ¬ MAX_STACK_DEPTH ≤ w.image_list_stack.length)
    (hopt : GetImageOption w.image_info "respect-parenthesis" = none) :
    CLISpecialOperator w "(" arg = imageListPushRaw w := by
  simp [CLISpecialOperator, h2, imageListPushRaw_image_info, hopt]

theorem CLISpecialOperator_close_noinfo (w : MagickCLI) (arg : String)
    (top : List Image) (rest : List (List Image))
    (hstk : w.image_list_stack = top :: rest)
    (hstk2 : w.image_info_stack = []) :
    CLISpecialOperator w ")" arg = imageListPopRaw w top rest := by
  simp [CLISpecialOperator, hstk, imageListPopRaw_image_info_stack, hstk2]

theorem CLISpecialOperator_close_unset (w : MagickCLI) (arg : String)
    (top : List Image) (rest : List (List Image)) (info : ImageInfo)
    (S : List ImageInfo) (hstk : w.image_list_stack = top :: rest)
    (hstk2 : w.image_info_stack = info :: S)
    (hv : GetImageOption info "respect-parenthesis" = none) :
    CLISpecialOperator w ")" arg = imageListPopRaw w top rest := by
  simp [CLISpecialOperator, hstk, imageListPopRaw_image_info_stack, hstk2, hv]

theorem CLISpecialOperator_close_set (w : MagickCLI) (arg : String)
    (top : List Image) (rest : List (List Image)) (info : ImageInfo)
    (S : List ImageInfo) (v : String)
    (hstk : w.image_list_stack = top :: rest)
    (hstk2 : w.image_info_stack = info :: S)
    (hv : GetImageOption info "respect-parenthesis" = some v) :
    CLISpecialOperator w ")" arg = settingsPop (imageListPopRaw w top rest) := by
  simp [CLISpecialOperator, hstk, imageListPopRaw_image_info_stack, hstk2, hv]

theorem special_depth_step (w : MagickCLI) (opt arg : String)
    (hl : w.image_list_stack.length ≤ MAX_STACK_DEPTH)
    (hi : w.image_info_stack.length ≤ MAX_STACK_DEPTH) :
    (CLISpecialOperator w opt arg).image_list_stack.length ≤ MAX_STACK_DEPTH
    ∧ (CLISpecialOperator w opt arg).image_info_stack.length ≤ MAX_STACK_DEPTH := by
  by_cases h1 : opt = "("
  · subst h1
    by_cases h2 : MAX_STACK_DEPTH ≤ w.image_list_stack.length
    · have heq : CLISpecialOperator w "(" arg
          = throwErr w Severity.optionError ErrCode.parenthesisNestedTooDeeply := by
        simp [CLISpecialOperator, h2]
      rw [heq, throwErr_image_list_stack, throwErr_image_info_stack]
      exact ⟨hl, hi⟩
    · cases hopt : GetImageOption w.image_info "respect-parenthesis" with
      | none =>
          have heq : CLISpecialOperator w "(" arg = imageListPushRaw w := by
            simp [CLISpecialOperator, h2, imageListPushRaw, hopt]
          rw [heq, imageListPushRaw_image_list_stack,
            imageListPushRaw_image_info_stack]
          refine ⟨?_, hi⟩
          simp only [List.length_cons]
          omega
      | some v =>
          have heq : CLISpecialOperator w "(" arg
              = settingsPush (imageListPushRaw w) := by
            simp [CLISpecialOperator, h2, imageListPushRaw, hopt]
          rw [heq, settingsPush_image_list_stack,
            imageListPushRaw_image_list_stack]
          refine ⟨?_, settingsPush_depth _
            (by rw [imageListPushRaw_image_info_stack]; exact hi)⟩
          simp only [List.length_cons]
          omega
  · by_cases h3 : opt = "\x7b"
    · subst h3
      have heq : CLISpecialOperator w "\x7b" arg = settingsPush w := by
        simp [CLISpecialOperator]
      rw [heq, settingsPush_image_list_stack]
      exact ⟨hl, settingsPush_depth _ hi⟩
    · by_cases h4 : opt = ")"
      · subst h4
        cases hstk : w.image_list_stack with
        | nil =>
            have heq : CLISpecialOperator w ")" arg
                = throwErr w Severity.optionError ErrCode.unbalancedParenthesis := by
              simp [CLISpecialOperator, hstk]
            rw [heq, throwErr_image_list_stack, throwErr_image_info_stack]
            exact ⟨hl, hi⟩
        | cons top rest =>
            rw [hstk] at hl
            have hl2 : rest.length + 1 ≤ MAX_STACK_DEPTH := by
              simpa using hl
            cases hstk2 : w.image_info_stack with
            | nil =>
                have heq : CLISpecialOperator w ")" arg
                    = imageListPopRaw w top rest := by
                  simp [CLISpecialOperator, hstk, imageListPopRaw, hstk2]
                rw [heq, imageListPopRaw_image_list_stack,
                  imageListPopRaw_image_info_stack]
                exact ⟨by omega, hi⟩
            | cons info S =>
                cases hopt : GetImageOption info "respect-parenthesis" with
                | none =>
                    have heq : CLISpecialOperator w ")" arg
                        = imageListPopRaw w top rest := by
                      simp [CLISpecialOperator, hstk, imageListPopRaw, hstk2, hopt]
                    rw [heq, imageListPopRaw_image_list_stack,
                      imageListPopRaw_image_info_stack]
                    exact ⟨by omega, hi⟩
                | some v =>
                    have heq : CLISpecialOperator w ")" arg
                        = settingsPop (imageListPopRaw w top rest) := by
                      simp [CLISpecialOperator, hstk, imageListPopRaw, hstk2, hopt]
                    rw [heq, settingsPop_image_list_stack,
                      imageListPopRaw_image_list_stack]
                    refine ⟨by omega, ?_⟩
                    refine settingsPop_depth _ ?_
                    rw [imageListPopRaw_image_info_stack]
                    exact hi
      · by_cases h5 : opt = "\x7d"
        · subst h5
          have heq : CLISpecialOperator w "\x7d" arg = settingsPop w := by
            simp [CLISpecialOperator]
          rw [heq, settingsPop_image_list_stack]
          exact ⟨hl, settingsPop_depth _ hi⟩
        · have heq : CLISpecialOperator w opt arg = w := by
            simp [CLISpecialOperator, h1, h3, h4, h5]
          rw [heq]
          exact ⟨hl, hi⟩

/-- C4: a push onto a stack already holding MAX_STACK_DEPTH = 32 entries
reports ParenthesisNestedTooDeeply and is refused, leaving the image list,
the settings, both stack depths and all other state unchanged (only the
exception sink grows); the severity is a non-fatal option error, aborting
only the push; sequences of stack-control options can never drive either
stack beyond depth 32. -/
theorem stack_depth_limit (w : MagickCLI) (arg : String) :
    (w.image_list_stack.length = MAX_STACK_DEPTH →
        CLISpecialOperator w "(" arg
          = throwErr w Severity.optionError ErrCode.parenthesisNestedTooDeeply)
  ∧ (w.image_info_stack.length = MAX_STACK_DEPTH →
        CLISpecialOperator w "\x7b" arg
          = throwErr w Severity.optionError ErrCode.parenthesisNestedTooDeeply)
  ∧ (∀ s c, (throwErr w s c).images = w.images
      ∧ (throwErr w s c).image_info = w.image_info
      ∧ (throwErr w s c).image_list_stack = w.image_list_stack
      ∧ (throwErr w s c).image_info_stack = w.image_info_stack
      ∧ (throwErr w s c).exceptions = w.exceptions ++ [⟨s, c⟩])
  ∧ Severity.isFatal Severity.optionError = false
  ∧ (∀ opts : List (String × String),
        w.image_list_stack.length ≤ MAX_STACK_DEPTH →
        w.image_info_stack.length ≤ MAX_STACK_DEPTH →
        (opts.foldl (fun s o => CLISpecialOperator s o.1 o.2) w).image_list_stack.length
            ≤ MAX_STACK_DEPTH
        ∧ (opts.foldl (fun s o => CLISpecialOperator s o.1 o.2) w).image_info_stack.length
            ≤ MAX_STACK_DEPTH) := by
  refine ⟨?_, ?_, fun s c => ⟨rfl, rfl, rfl, rfl, rfl⟩, rfl, ?_⟩
  · intro h
    simp [CLISpecialOperator, h]
  · intro h
    simp [CLISpecialOperator, settingsPush, h]
  · intro opts
    induction opts generalizing w with
    | nil => exact fun hl hi => ⟨hl, hi⟩
    | cons o opts ih =>
        intro hl hi
        have hstep := special_depth_step w o.1 o.2 hl hi
        simpa using ih (CLISpecialOperator w o.1 o.2) hstep.1 hstep.2

/-- C4 witness: a context with both stacks at depth 32 refuses the coupled
image-list push. -/
theorem stack_depth_limit_witness :
    CLISpecialOperator
        (mkWand [] emptyInfo (List.replicate 32 []) (List.replicate 32 emptyInfo))
        "(" ""
      = throwErr
          (mkWand [] emptyInfo (List.replicate 32 []) (List.replicate 32 emptyInfo))
          Severity.optionError ErrCode.parenthesisNestedTooDeeply :=
  (stack_depth_limit
    (mkWand [] emptyInfo (List.replicate 32 []) (List.replicate 32 emptyInfo)) "").1
    (by simp [mkWand, MAX_STACK_DEPTH])

/-- C5: the respect-nested-scoping toggle is read after acting on the
image-list push or pop: a successful image-list push behaves as the raw push
followed, exactly when the toggle is set in the settings that were active
going into the push (which the image push leaves untouched), by the
settings-scope push; a successful image-list pop behaves as the raw pop
followed, exactly when the toggle is set in the settings snapshot on top of
the settings stack, by the settings-scope pop, which restores precisely that
snapshot; when the respective value is unset, the settings and the settings
stack are untouched. -/
theorem respect_parenthesis_coupling (w : MagickCLI) (arg : String) :
    (w.image_list_stack.length < MAX_STACK_DEPTH →
        CLISpecialOperator w "(" arg
          = if (GetImageOption w.image_info "respect-parenthesis").isSome
            then CLISpecialOperator (imageListPushRaw w) "\x7b" arg
            else imageListPushRaw w)
  ∧ (∀ top rest, w.image_list_stack = top :: rest →
        CLISpecialOperator w ")" arg
          = match (imageListPopRaw w top rest).image_info_stack with
            | [] => imageListPopRaw w top rest
            | info :: _ =>
                if (GetImageOption info "respect-parenthesis").isSome
                then CLISpecialOperator (imageListPopRaw w top rest) "\x7d" arg
                else imageListPopRaw w top rest)
  ∧ (GetImageOption w.image_info "respect-parenthesis" = none →
      w.image_list_stack.length < MAX_STACK_DEPTH →
        (CLISpecialOperator w "(" arg).image_info = w.image_info
      ∧ (CLISpecialOperator w "(" arg).image_info_stack = w.image_info_stack)
  ∧ (∀ top rest info S, w.image_list_stack = top :: rest →
        w.image_info_stack = info :: S →
        GetImageOption info "respect-parenthesis" = none →
        (CLISpecialOperator w ")" arg).image_info = w.image_info
      ∧ (CLISpecialOperator w ")" arg).image_info_stack = w.image_info_stack)
  ∧ (∀ top rest info S, w.image_list_stack = top :: rest →
        w.image_info_stack = info :: S →
        (GetImageOption info "respect-parenthesis").isSome →
        (CLISpecialOperator w ")" arg).image_info = info
      ∧ (CLISpecialOperator w ")" arg).image_info_stack = S) := by
  refine ⟨?_, ?_, ?_, ?_, ?_⟩
  · intro hlt
    have h2 : ¬ MAX_STACK_DEPTH ≤ w.image_list_stack.length := by omega
    cases hopt : GetImageOption w.image_info "respect-parenthesis" with
    | none => simp [CLISpecialOperator, h2, imageListPushRaw, hopt]
    | some v => simp [CLISpecialOperator, h2, imageListPushRaw, hopt]
  · intro top rest hstk
    cases hstk2 : w.image_info_stack with
    | nil => simp [CLISpecialOperator, hstk, imageListPopRaw, hstk2]
    | cons info S =>
        cases hopt : GetImageOption info "respect-parenthesis" with
        | none => simp [CLISpecialOperator, hstk, imageListPopRaw, hstk2, hopt]
        | some v => simp [CLISpecialOperator, hstk, imageListPopRaw, hstk2, hopt]
  · intro hnone hlt
    have h2 : ¬ MAX_STACK_DEPTH ≤ w.image_list_stack.length := by omega
    constructor <;> simp [CLISpecialOperator, h2, imageListPushRaw, hnone]
  · intro top rest info S hstk hstk2 hnone
    constructor <;> simp [CLISpecialOperator, hstk, imageListPopRaw, hstk2, hnone]
  · intro top rest info S hstk hstk2 hsome
    rcases Option.isSome_iff_exists.mp hsome with ⟨v, hv⟩
    constructor <;>
      simp [CLISpecialOperator, hstk, imageListPopRaw, hstk2, hv, settingsPop]

/-- C5 witness: a one-image context with the toggle set performs the coupled
settings push on the image-list push. -/
theorem respect_parenthesis_coupling_witness :
    CLISpecialOperator (mkWand [⟨1, 0, 0⟩] rpInfo [] []) "(" ""
      = if (GetImageOption (mkWand [⟨1, 0, 0⟩] rpInfo [] []).image_info
              "respect-parenthesis").isSome
        then CLISpecialOperator (imageListPushRaw (mkWand [⟨1, 0, 0⟩] rpInfo [] []))
               "\x7b" ""
        else imageListPushRaw (mkWand [⟨1, 0, 0⟩] rpInfo [] []) :=
  (respect_parenthesis_coupling (mkWand [⟨1, 0, 0⟩] rpInfo [] []) "").1
    (by simp [mkWand, MAX_STACK_DEPTH])

/-- C3 counterexample: in a context whose current settings have the
respect-parenthesis toggle unset while a stacked settings snapshot has it
set, the image-list push reads the unset toggle (no settings push), but the
matching pop reads the set toggle from the snapshot on top of the settings
stack and pops it, so the round trip replaces the settings content; the
claim fails as stated for this Execution Context state. -/
theorem group_push_pop_roundtrip_cex :
    ¬ ((CLISpecialOperator
          (CLISpecialOperator (mkWand [⟨1, 0, 0⟩] emptyInfo [] [rpInfo]) "(" "")
          ")" "").images
        = (mkWand [⟨1, 0, 0⟩] emptyInfo [] [rpInfo]).images
      ∧ (CLISpecialOperator
          (CLISpecialOperator (mkWand [⟨1, 0, 0⟩] emptyInfo [] [rpInfo]) "(" "")
          ")" "").image_info
        = (mkWand [⟨1, 0, 0⟩] emptyInfo [] [rpInfo]).image_info) := by
  decide

/-- C3 (amended): a group push immediately followed by the matching pop, with
no operator in between, leaves the image list and the settings content-equal
to their pre-push values, provided the push was not refused (the settings
stack is below depth 32 for the settings scope; the image-list stack below
depth 32 for the image-list scope, with the coupled settings push also below
depth 32 when the toggle is set), and provided, for the image-list scope with
the toggle unset, that the settings snapshot on top of the settings stack (if
any) also has it unset — when that snapshot disagrees, the pop pops a
settings snapshot the push never pushed (the asymmetry of the
counterexample). -/
theorem group_push_pop_roundtrip_amended (w : MagickCLI) (arg : String) :
    (w.image_info_stack.length < MAX_STACK_DEPTH →
        (CLISpecialOperator (CLISpecialOperator w "\x7b" arg) "\x7d" arg).images
          = w.images
      ∧ (CLISpecialOperator (CLISpecialOperator w "\x7b" arg) "\x7d" arg).image_info
          = w.image_info)
  ∧ (w.image_list_stack.length < MAX_STACK_DEPTH →
      (GetImageOption w.image_info "respect-parenthesis" = none →
        ∀ top S, w.image_info_stack = top :: S →
          GetImageOption top "respect-parenthesis" = none) →
      (GetImageOption w.image_info "respect-parenthesis" ≠ none →
        w.image_info_stack.length < MAX_STACK_DEPTH) →
        (CLISpecialOperator (CLISpecialOperator w "(" arg) ")" arg).images
          = w.images
      ∧ (CLISpecialOperator (CLISpecialOperator w "(" arg) ")" arg).image_info
          = w.image_info) := by
  constructor
  · intro hdepth
    have h2 : ¬ MAX_STACK_DEPTH ≤ w.image_info_stack.length := by omega
    constructor <;>
      simp [CLISpecialOperator, settingsPush, settingsPop, CloneImageInfo, h2]
  · intro hlt hcons1 hcons2
    have h2 : ¬ MAX_STACK_DEPTH ≤ w.image_list_stack.length := by omega
    cases hopt : GetImageOption w.image_info "respect-parenthesis" with
    | some v =>
        have hinfo : ¬ MAX_STACK_DEPTH ≤ w.image_info_stack.length := by
          have := hcons2 (by simp [hopt])
          omega
        rw [CLISpecialOperator_paren_some w arg h2 v hopt,
          settingsPush_not_full _
            (by rw [imageListPushRaw_image_info_stack]; exact hinfo)]
        rw [CLISpecialOperator_close_set _ arg w.images w.image_list_stack
          w.image_info w.image_info_stack v rfl rfl hopt]
        rw [settingsPop_cons _ w.image_info w.image_info_stack rfl]
        constructor <;> simp [imageListPushRaw, imageListPopRaw, CloneImageInfo]
    | none =>
        rw [CLISpecialOperator_paren_none w arg h2 hopt]
        cases hstk2 : w.image_info_stack with
        | nil =>
            rw [CLISpecialOperator_close_noinfo _ arg w.images
              w.image_list_stack rfl (by rw [imageListPushRaw_image_info_stack]; exact hstk2)]
            constructor <;> simp [imageListPushRaw, imageListPopRaw]
        | cons info S =>
            have hnone := hcons1 hopt info S hstk2
            rw [CLISpecialOperator_close_unset _ arg w.images
              w.image_list_stack info S rfl
              (by rw [imageListPushRaw_image_info_stack]; exact hstk2) hnone]
            constructor <;> simp [imageListPushRaw, imageListPopRaw]

/-- C3 amended witness: a one-image context with empty stacks and the toggle
unset round-trips through the image-list scope. -/
theorem group_push_pop_roundtrip_amended_witness :
    (CLISpecialOperator
        (CLISpecialOperator (mkWand [⟨1, 0, 0⟩] emptyInfo [] []) "(" "") ")" "").images
      = (mkWand [⟨1, 0, 0⟩] emptyInfo [] []).images
    ∧ (CLISpecialOperator
        (CLISpecialOperator (mkWand [⟨1, 0, 0⟩] emptyInfo [] []) "(" "") ")" "").image_info
      = (mkWand [⟨1, 0, 0⟩] emptyInfo [] []).image_info :=
  (group_push_pop_roundtrip_amended (mkWand [⟨1, 0, 0⟩] emptyInfo [] []) "").2
    (by simp [mkWand, MAX_STACK_DEPTH])
    (by intro _ top S hstk; simp [mkWand] at hstk)
    (by intro hne; exact absurd rfl hne)

/-- C10 counterexample: with the toggle set, the settings stack at depth 32
and the image-list stack at depth 31, the image-list push succeeds while the
coupled settings push is refused, and both stacks end at depth 32 — the
"they end at different depths" part of the claim fails for this state. -/
theorem coupled_push_depths_cex :
    (CLISpecialOperator
        (mkWand [] rpInfo (List.replicate 31 []) (List.replicate 32 emptyInfo))
        "(" "").image_list_stack.length
      = (CLISpecialOperator
          (mkWand [] rpInfo (List.replicate 31 []) (List.replicate 32 emptyInfo))
          "(" "").image_info_stack.length
    ∧ GetImageOption rpInfo "respect-parenthesis" ≠ none
    ∧ (List.replicate 32 emptyInfo).length = MAX_STACK_DEPTH
    ∧ (List.replicate 31 ([] : List Image)).length < MAX_STACK_DEPTH := by
  decide

/-- C10 (amended): when the toggle is set, the settings stack holds 32
entries and the image-list stack fewer, the image-list push still happens
(its stack grows by one and the current list becomes empty) while the
coupled settings push is refused with the NestedTooDeeply error, leaving the
settings and their stack unchanged — the coupled push is not atomic across
the two stacks; the final depths differ except when the image-list stack
reaches exactly 32. -/
theorem coupled_push_nonatomic_amended (w : MagickCLI) (arg : String)
    (hrp : GetImageOption w.image_info "respect-parenthesis" ≠ none)
    (hinfo : w.image_info_stack.length = MAX_STACK_DEPTH)
    (hlist : w.image_list_stack.length < MAX_STACK_DEPTH) :
    (CLISpecialOperator w "(" arg).image_list_stack
        = w.images :: w.image_list_stack
  ∧ (CLISpecialOperator w "(" arg).images = []
  ∧ (CLISpecialOperator w "(" arg).image_info_stack = w.image_info_stack
  ∧ (CLISpecialOperator w "(" arg).image_info = w.image_info
  ∧ (CLISpecialOperator w "(" arg).exceptions
      = w.exceptions
          ++ [⟨Severity.optionError, ErrCode.parenthesisNestedTooDeeply⟩]
  ∧ (w.image_list_stack.length + 1 ≠ MAX_STACK_DEPTH →
      (CLISpecialOperator w "(" arg).image_list_stack.length
        ≠ (CLISpecialOperator w "(" arg).image_info_stack.length) := by
  have h2 : ¬ MAX_STACK_DEPTH ≤ w.image_list_stack.length := by omega
  rcases Option.ne_none_iff_exists.mp hrp with ⟨v, hv⟩
  have heq : CLISpecialOperator w "(" arg
      = throwErr (imageListPushRaw w) Severity.optionError
          ErrCode.parenthesisNestedTooDeeply := by
    simp [CLISpecialOperator, h2, imageListPushRaw, hv.symm, settingsPush,
      hinfo, throwErr]
  rw [heq]
  refine ⟨rfl, rfl, rfl, rfl, rfl, ?_⟩
  intro hne
  rw [throwErr_image_list_stack, throwErr_image_info_stack,
    imageListPushRaw_image_list_stack, imageListPushRaw_image_info_stack,
    List.length_cons, hinfo]
  omega

/-- C10 amended witness: the toggle set, settings stack full, image stack
empty: the image push happens and the settings stay put. -/
theorem coupled_push_nonatomic_amended_witness :
    (CLISpecialOperator (mkWand [] rpInfo [] (List.replicate 32 emptyInfo))
        "(" "").image_info_stack
      = (mkWand [] rpInfo [] (List.replicate 32 emptyInfo)).image_info_stack
    ∧ (CLISpecialOperator (mkWand [] rpInfo [] (List.replicate 32 emptyInfo))
        "(" "").image_info = rpInfo := by
  have h := coupled_push_nonatomic_amended
    (mkWand [] rpInfo [] (List.replicate 32 emptyInfo)) ""
    (by decide) (by simp [mkWand, MAX_STACK_DEPTH])
    (by simp [mkWand, MAX_STACK_DEPTH])
  exact ⟨h.2.2.1, h.2.2.2.1⟩

theorem nextTok_length {ts ts2 : List Token} {t : Token}
    (h : nextTok ts = some (t, ts2)) : ts2.length < ts.length := by
  induction ts with
  | nil => cases h
  | cons a rest ih =>
      cases a with
      | comma =>
          have h2 : nextTok rest = some (t, ts2) := by simpa [nextTok] using h
          exact Nat.lt_succ_of_lt (ih h2)
      | num v =>
          obtain ⟨h1, h2⟩ : Token.num v = t ∧ rest = ts2 := by
            simpa [nextTok] using h
          subst h2
          exact Nat.lt_succ_self _
      | colorTok c =>
          obtain ⟨h1, h2⟩ : Token.colorTok c = t ∧ rest = ts2 := by
            simpa [nextTok] using h
          subst h2
          exact Nat.lt_succ_self _

theorem nextTok_count (ch : ChannelConfig) {ts ts2 : List Token} {t : Token}
    (h : nextTok ts = some (t, ts2)) :
    countSparseArgs ch ts = countSparseArgs ch (t :: ts2) := by
  induction ts with
  | nil => cases h
  | cons a rest ih =>
      cases a with
      | comma =>
          have h2 : nextTok rest = some (t, ts2) := by simpa [nextTok] using h
          simpa [countSparseArgs] using ih h2
      | num v =>
          obtain ⟨h1, h2⟩ : Token.num v = t ∧ rest = ts2 := by
            simpa [nextTok] using h
          subst h1
          subst h2
          rfl
      | colorTok c =>
          obtain ⟨h1, h2⟩ : Token.colorTok c = t ∧ rest = ts2 := by
            simpa [nextTok] using h
          subst h1
          subst h2
          rfl

theorem readBareChannels_length (k : Nat) (ts : List Token) :
    (readBareChannels k ts).2.1.length ≤ ts.length := by
  induction k generalizing ts with
  | zero => simp [readBareChannels]
  | succ k ih =>
      simp only [readBareChannels]
      cases h : nextTok ts with
      | none => simp
      | some p =>
          obtain ⟨t, ts2⟩ := p
          cases t with
          | comma =>
              simpa using le_of_lt (nextTok_length h)
          | num v =>
              simpa using le_trans (ih ts2) (le_of_lt (nextTok_length h))
          | colorTok c => simp

theorem fillSparseFuel_growth (ch : ChannelConfig) (total : Nat)
    (fuel : Nat) (ts : List Token) (x : Nat) (acc : List ℚ) :
    (fillSparseFuel ch total fuel ts x acc).1.length + x
      = acc.length + (fillSparseFuel ch total fuel ts x acc).2.1 := by
  induction fuel, ts, x, acc using fillSparseFuel.induct ch total
  all_goals simp only [fillSparseFuel, if_true, if_false, Bool.false_eq_true,
    List.cons_append, List.nil_append, List.append_assoc, List.length_append,
    List.length_cons, List.length_nil, *] at *
  all_goals omega

theorem fillSparseFuel_congr (ch : ChannelConfig) (total : Nat) :
    ∀ (f g : Nat) (ts : List Token) (x : Nat) (acc : List ℚ),
      ts.length < f → ts.length < g →
      fillSparseFuel ch total f ts x acc = fillSparseFuel ch total g ts x acc := by
  intro f
  induction f using Nat.strong_induction_on with
  | _ f ihf =>
      intro g ts x acc hf hg
      cases f with
      | zero => omega
      | succ f =>
          cases g with
          | zero => omega
          | succ g =>
              simp only [fillSparseFuel]
              by_cases hx : x < total
              · rw [if_pos hx, if_pos hx]
                cases h1 : nextTok ts with
                | none => rfl
                | some p1 =>
                    obtain ⟨t1, ts1⟩ := p1
                    have hlt1 := nextTok_length h1
                    cases t1 with
                    | comma => rfl
                    | colorTok c => rfl
                    | num vx =>
                        dsimp only
                        cases h2 : nextTok ts1 with
                        | none => rfl
                        | some p2 =>
                            obtain ⟨t2, ts2⟩ := p2
                            have hlt2 := nextTok_length h2
                            cases t2 with
                            | comma => rfl
                            | colorTok c => rfl
                            | num vy =>
                                dsimp only
                                cases h3 : nextTok ts2 with
                                | none => rfl
                                | some p3 =>
                                    obtain ⟨t3, ts3⟩ := p3
                                    have hlt3 := nextTok_length h3
                                    cases t3 with
                                    | comma => rfl
                                    | colorTok c =>
                                        exact ihf f (Nat.lt_succ_self f) g ts3 _ _
                                          (by omega) (by omega)
                                    | num v3 =>
                                        dsimp only
                                        by_cases hc : ch.count = 0
                                        · rw [if_pos hc, if_pos hc]
                                          exact ihf f (Nat.lt_succ_self f) g ts3 _ _
                                            (by omega) (by omega)
                                        · rw [if_neg hc, if_neg hc]
                                          have hr := readBareChannels_length
                                            (ch.count - 1) ts3
                                          cases hok : (readBareChannels (ch.count - 1) ts3).2.2 with
                                          | true =>
                                              simp only [hok, eq_self_iff_true,
                                                if_true]
                                              exact ihf f (Nat.lt_succ_self f) g
                                                (readBareChannels (ch.count - 1) ts3).2.1
                                                _ _ (by omega) (by omega)
                                          | false =>
                                              simp only [hok, Bool.false_eq_true,
                                                if_false]
              · rw [if_neg hx, if_neg hx]

/-- C7: the sparse-color mini-parser is two-pass: pass 1 counts the needed
values (a color token counting as the active channel count C) and rejects a
total that is not a multiple of 2 + C with the invalid-argument-count error,
yielding no output at all; a successful parse always returns exactly the
number of values pass 1 counted (a multiple of 2 + C); and pass 2 reports
the matching error when a color token sits where the x or the y coordinate
of a group is expected. -/
theorem sparse_color_two_pass (ch : ChannelConfig) (ts : List Token) :
    (countSparseArgs ch ts % (2 + ch.count) ≠ 0 →
        SparseColorOption ch ts = Except.error SparseErr.invalidCount)
  ∧ (∀ r, SparseColorOption ch ts = Except.ok r →
        r.length = countSparseArgs ch ts
      ∧ r.length % (2 + ch.count) = 0)
  ∧ (∀ c ts2, 0 < countSparseArgs ch ts →
        countSparseArgs ch ts % (2 + ch.count) = 0 →
        nextTok ts = some (Token.colorTok c, ts2) →
        SparseColorOption ch ts = Except.error SparseErr.colorInsteadOfX)
  ∧ (∀ v c ts1 ts2, countSparseArgs ch ts % (2 + ch.count) = 0 →
        nextTok ts = some (Token.num v, ts1) →
        nextTok ts1 = some (Token.colorTok c, ts2) →
        SparseColorOption ch ts = Except.error SparseErr.colorInsteadOfY) := by
  refine ⟨?_, ?_, ?_, ?_⟩
  · intro hmod
    simp [SparseColorOption, hmod]
  · intro r hok
    have hmod : countSparseArgs ch ts % (2 + ch.count) = 0 := by
      by_contra hmod
      simp [SparseColorOption, hmod] at hok
    have hlen : r.length = countSparseArgs ch ts := by
      simp only [SparseColorOption, hmod] at hok
      rw [if_neg (by simp [hmod])] at hok
      have hgrow := fillSparseFuel_growth ch (countSparseArgs ch ts)
        (ts.length + 1) ts 0 []
      cases hval : (fillSparseFuel ch (countSparseArgs ch ts)
          (ts.length + 1) ts 0 []).2.2 with
      | some e => rw [hval] at hok; cases hok
      | none =>
          rw [hval] at hok
          by_cases hx : countSparseArgs ch ts
              ≠ (fillSparseFuel ch (countSparseArgs ch ts)
                  (ts.length + 1) ts 0 []).2.1
          · rw [if_pos hx] at hok; cases hok
          · rw [if_neg hx] at hok
            obtain rfl : (fillSparseFuel ch (countSparseArgs ch ts)
                (ts.length + 1) ts 0 []).1 = r := by
              cases hok
              rfl
            simp at hgrow
            omega
    refine ⟨hlen, ?_⟩
    rw [hlen]
    exact hmod
  · intro c ts2 hpos hmod h1
    have hfill : fillSparseFuel ch (countSparseArgs ch ts) (ts.length + 1)
        ts 0 [] = ([], 0, some SparseErr.colorInsteadOfX) := by
      show fillSparseFuel ch (countSparseArgs ch ts) (Nat.succ ts.length)
        ts 0 [] = ([], 0, some SparseErr.colorInsteadOfX)
      simp only [fillSparseFuel, h1, hpos, if_true]
    simp only [SparseColorOption]
    rw [if_neg (by simp [hmod]), hfill]
  · intro v c ts1 ts2 hmod h1 h2
    have hpos : 0 < countSparseArgs ch ts := by
      have hcount := nextTok_count ch h1
      simp [countSparseArgs] at hcount
      omega
    have hfill : fillSparseFuel ch (countSparseArgs ch ts) (ts.length + 1)
        ts 0 [] = ([v], 1, some SparseErr.colorInsteadOfY) := by
      show fillSparseFuel ch (countSparseArgs ch ts) (Nat.succ ts.length)
        ts 0 [] = ([v], 1, some SparseErr.colorInsteadOfY)
      simp only [fillSparseFuel, h1, h2, hpos, if_true]
      simp
    simp only [SparseColorOption]
    rw [if_neg (by simp [hmod]), hfill]

/-- C7 witness: a lone bare number is rejected as an invalid count for
C = 3, and a color token in the x-coordinate slot of a five-token group is
the color-instead-of-coordinate error. -/
theorem sparse_color_two_pass_witness :
    SparseColorOption rgbChans [Token.num 1]
        = Except.error SparseErr.invalidCount
    ∧ SparseColorOption rgbChans
        [Token.colorTok ⟨65535, 0, 0, 0, 65535⟩, Token.num 1, Token.num 2]
        = Except.error SparseErr.colorInsteadOfX := by
  constructor
  · exact (sparse_color_two_pass rgbChans [Token.num 1]).1 (by decide)
  · exact (sparse_color_two_pass rgbChans
      [Token.colorTok ⟨65535, 0, 0, 0, 65535⟩, Token.num 1, Token.num 2]).2.2.1
      ⟨65535, 0, 0, 0, 65535⟩ [Token.num 1, Token.num 2]
      (by decide) (by decide) rfl

/-- C8 counterexample: parsing the specification example
"0,0,red,10,10,#00ff00" with C = 3 active RGB channels succeeds, but the
result holds 10 numeric values (2 coordinates plus 3 channel values per
group, two groups), not 12 as the claim states. -/
theorem sparse_color_example_cex :
    SparseColorOption rgbChans (tokenizeSparse "0,0,red,10,10,#00ff00")
        = Except.ok [0, 0, 1, 0, 0, 10, 10, 0, 1, 0]
    ∧ ([0, 0, 1, 0, 0, 10, 10, 0, 1, 0] : List ℚ).length ≠ 12 := by
  constructor
  · with_unfolding_all rfl
  · decide

/-- C8 (amended): parsing "0,0,red,10,10,#00ff00" with C = 3 active RGB
channels succeeds and produces an array of 10 numeric values — per group 2
coordinates plus exactly C = 3 channel components with the named or hex
color normalized to the unit interval (red contributes 1,0,0 and the hex
green 0,1,0). -/
theorem sparse_color_example_amended :
    SparseColorOption rgbChans (tokenizeSparse "0,0,red,10,10,#00ff00")
        = Except.ok [0, 0, 1, 0, 0, 10, 10, 0, 1, 0]
    ∧ ([0, 0, 1, 0, 0, 10, 10, 0, 1, 0] : List ℚ).length = 10
    ∧ (10 : Nat) = 2 * (2 + rgbChans.count)
    ∧ colorComponents rgbChans ⟨65535, 0, 0, 0, 65535⟩ = [1, 0, 0]
    ∧ colorComponents rgbChans ⟨0, 65535, 0, 0, 65535⟩ = [0, 1, 0]
    ∧ (0 : ℚ) ≤ 0 ∧ (0 : ℚ) ≤ 1 ∧ (1 : ℚ) ≤ 1 :=
  ⟨by with_unfolding_all rfl, by decide, by decide,
    by with_unfolding_all rfl, by with_unfolding_all rfl,
    by norm_num, by norm_num, by norm_num⟩

end Operation
